import Mathlib

/-!
# Scoped-resource holders and GC interface constants

A shallow embedding of `src/Native/Runtime/holder.h` and of the clump constants and
object-scan callback protocol of `src/Native/Runtime/gcrhinterface.h`.

The template parameters `ACQUIRE_FUNC` and `RELEASE_FUNC` are external functions; a call to
one of them is recorded as an event, and every member function returns the events it
produced, in program order, next to the new object state and its C++ return value.
-/

/-- A call of one of the two function template parameters of a holder, with its argument. -/
inductive Call (α : Type) where
  | ACQUIRE_FUNC (v : α)
  | RELEASE_FUNC (v : α)
  deriving DecidableEq, Repr

namespace Call

/-- Whether the event is a call of `ACQUIRE_FUNC`. -/
def isAcquire {α : Type} : Call α → Bool
  | ACQUIRE_FUNC _ => true
  | RELEASE_FUNC _ => false

/-- Whether the event is a call of `RELEASE_FUNC`. -/
def isRelease {α : Type} : Call α → Bool
  | ACQUIRE_FUNC _ => false
  | RELEASE_FUNC _ => true

end Call

/-- Number of `ACQUIRE_FUNC` calls in a trace. -/
def acquireCount {α : Type} (t : List (Call α)) : Nat := t.countP Call.isAcquire

/-- Number of `RELEASE_FUNC` calls in a trace. -/
def releaseCount {α : Type} (t : List (Call α)) : Nat := t.countP Call.isRelease

/-- The data members of `HolderNoDefaultValue<TYPE, ACQUIRE_FUNC, RELEASE_FUNC>`. -/
structure HolderNoDefaultValue (α : Type) where
  m_value : α
  m_held : Bool
  deriving DecidableEq, Repr

/-- What a member function call produces: its return value, the object afterwards and the
`ACQUIRE_FUNC` / `RELEASE_FUNC` calls it made, in order. -/
structure Outcome (α ρ : Type) where
  ret : ρ
  self : HolderNoDefaultValue α
  calls : List (Call α)

namespace HolderNoDefaultValue

variable {α : Type}

/-- `HolderNoDefaultValue(TYPE value, bool fTake = true) : m_value(value), m_held(false)
    { if (fTake) { ACQUIRE_FUNC(value); m_held = true; } }` -/
def construct (value : α) (fTake : Bool) : Outcome α Unit :=
  let h : HolderNoDefaultValue α := { m_value := value, m_held := false }
  if fTake then
    { ret := (), self := { h with m_held := true }, calls := [Call.ACQUIRE_FUNC value] }
  else
    { ret := (), self := h, calls := [] }

/-- `~HolderNoDefaultValue() { if (m_held) RELEASE_FUNC(m_value); }`: the calls made by the
destructor (the object is gone afterwards). -/
def destruct (h : HolderNoDefaultValue α) : List (Call α) :=
  if h.m_held then [Call.RELEASE_FUNC h.m_value] else []

/-- `TYPE GetValue() { return m_value; }` -/
def GetValue (h : HolderNoDefaultValue α) : Outcome α α :=
  { ret := h.m_value, self := h, calls := [] }

/-- `void Acquire() { ACQUIRE_FUNC(m_value); m_held = true; }` -/
def Acquire (h : HolderNoDefaultValue α) : Outcome α Unit :=
  { ret := (), self := { h with m_held := true }, calls := [Call.ACQUIRE_FUNC h.m_value] }

/-- `void Release() { if (m_held) { RELEASE_FUNC(m_value); m_held = false; } }` -/
def Release (h : HolderNoDefaultValue α) : Outcome α Unit :=
  if h.m_held then
    { ret := (), self := { h with m_held := false }, calls := [Call.RELEASE_FUNC h.m_value] }
  else
    { ret := (), self := h, calls := [] }

/-- `void SuppressRelease() { m_held = false; }` -/
def SuppressRelease (h : HolderNoDefaultValue α) : Outcome α Unit :=
  { ret := (), self := { h with m_held := false }, calls := [] }

/-- `TYPE Extract() { m_held = false; return GetValue(); }` -/
def Extract (h : HolderNoDefaultValue α) : Outcome α α :=
  let h1 : HolderNoDefaultValue α := { h with m_held := false }
  let g := h1.GetValue
  { ret := g.ret, self := g.self, calls := g.calls }

end HolderNoDefaultValue

/-- `class Holder : public HolderNoDefaultValue<...>` adds no data member. -/
abbrev Holder (α : Type) := HolderNoDefaultValue α

namespace Holder

variable {α : Type}

/-- `Holder() : MY_PARENT(DEFAULTVALUE, false) {}`; the template argument `DEFAULTVALUE` is
taken as already converted to `TYPE`. -/
def constructDefault (DEFAULTVALUE : α) : Outcome α Unit :=
  HolderNoDefaultValue.construct DEFAULTVALUE false

/-- `Holder(TYPE value, bool fTake = true) : MY_PARENT(value, fTake) {}` -/
def construct (value : α) (fTake : Bool) : Outcome α Unit :=
  HolderNoDefaultValue.construct value fTake

end Holder

/-- `class Wrapper : public Holder<...>` adds no data member. -/
abbrev Wrapper (α : Type) := Holder α

/-- A `TYPE const &` argument. The referent lives outside the callee, and the external
functions `ACQUIRE_FUNC` and `RELEASE_FUNC` may write it, so its content at the moment of
a read is a function of the calls the callee has made before that read; `read []` is the
content when the callee is entered. -/
structure ConstRef (α : Type) where
  read : List (Call α) → α

/-- A reference to an object that no call writes, such as a temporary or a by-value
parameter of the caller. -/
def ConstRef.stable {α : Type} (w : α) : ConstRef α := { read := fun _ => w }

namespace Wrapper

variable {α : Type}

/-- `Wrapper() : MY_PARENT() {}` -/
def constructDefault (DEFAULTVALUE : α) : Outcome α Unit :=
  Holder.constructDefault DEFAULTVALUE

/-- `Wrapper(TYPE value, bool fTake = true) : MY_PARENT(value, fTake) {}` -/
def construct (value : α) (fTake : Bool) : Outcome α Unit :=
  Holder.construct value fTake

/-- `TYPE& operator=(TYPE const & value)
    { Release(); m_value = value; Acquire(); return m_value; }`; `value` is read through
the reference after `Release()` has returned. -/
def assign (h : Wrapper α) (value : ConstRef α) : Outcome α α :=
  let r := HolderNoDefaultValue.Release h
  let h1 : Wrapper α := { r.self with m_value := value.read r.calls }
  let a := HolderNoDefaultValue.Acquire h1
  { ret := a.self.m_value, self := a.self, calls := r.calls ++ a.calls }

end Wrapper

/-! ## Specialisations: `NewHolder`, `NewArrayHolder`, `CreateHolder` -/

/-- What the concrete acquire and release functions of the specialisations do. -/
inductive Effect (α : Type) where
  | deleteScalar (value : α)
  | deleteArray (value : α)
  | destroyMethod (value : α)
  deriving DecidableEq, Repr

/-- `template <typename TYPE> void DoNothing(TYPE value) { }` -/
def DoNothing {α : Type} (_value : α) : List (Effect α) := []

/-- `template <typename TYPE> void Delete(TYPE *value) { delete value; }` -/
def Delete {α : Type} (value : α) : List (Effect α) := [Effect.deleteScalar value]

/-- `template <typename TYPE> void DeleteArray(TYPE *value) { delete [] value; value = NULL; }`;
the assignment only changes the by-value parameter. -/
def DeleteArray {α : Type} (value : α) : List (Effect α) := [Effect.deleteArray value]

/-- `template<typename TYPE> void Destroy(TYPE * value) { value->Destroy(); }` -/
def Destroy {α : Type} (value : α) : List (Effect α) := [Effect.destroyMethod value]

/-- Instantiates the two function template parameters in a trace of calls. -/
def perform {α : Type} (ACQUIRE_FUNC RELEASE_FUNC : α → List (Effect α)) :
    List (Call α) → List (Effect α)
  | [] => []
  | Call.ACQUIRE_FUNC v :: t => ACQUIRE_FUNC v ++ perform ACQUIRE_FUNC RELEASE_FUNC t
  | Call.RELEASE_FUNC v :: t => RELEASE_FUNC v ++ perform ACQUIRE_FUNC RELEASE_FUNC t

/-- `class NewHolder : public BASE`, with `BASE = Wrapper<PTR_TYPE, ACQUIRE_FUNC,
RELEASE_FUNC, NULL_VAL>`. -/
abbrev NewHolder (α : Type) := Wrapper α

namespace NewHolder

variable {α : Type}

/-- `NewHolder(PTR_TYPE p = NULL_VAL) : BASE(p) { }`; `none` is the omitted argument.
`BASE(p)` is `Wrapper(TYPE value, bool fTake = true)` with `fTake` defaulted. -/
def construct (NULL_VAL : α) (p : Option α) : Outcome α Unit :=
  Wrapper.construct (p.getD NULL_VAL) true

/-- `PTR_TYPE& operator=(PTR_TYPE p) { return BASE::operator=(p); }`; `p` is a by-value
parameter, so the reference handed to `BASE::operator=` is to a local copy. -/
def assign (h : NewHolder α) (p : α) : Outcome α α := Wrapper.assign h (ConstRef.stable p)

/-- `bool IsNull() { return BASE::GetValue() == NULL_VAL; }` -/
def IsNull [DecidableEq α] (NULL_VAL : α) (h : NewHolder α) : Outcome α Bool :=
  let g := HolderNoDefaultValue.GetValue h
  { ret := decide (g.ret = NULL_VAL), self := g.self, calls := g.calls }

end NewHolder

/-- `class NewArrayHolder : public BASE`, with `BASE = Wrapper<PTR_TYPE, ACQUIRE_FUNC,
RELEASE_FUNC, NULL_VAL>`. -/
abbrev NewArrayHolder (α : Type) := Wrapper α

namespace NewArrayHolder

variable {α : Type}

/-- `NewArrayHolder(PTR_TYPE p = NULL_VAL) : BASE(p) { }`; `none` is the omitted argument. -/
def construct (NULL_VAL : α) (p : Option α) : Outcome α Unit :=
  Wrapper.construct (p.getD NULL_VAL) true

/-- `PTR_TYPE& operator=(PTR_TYPE p) { return BASE::operator=(p); }`; `p` is a by-value
parameter, so the reference handed to `BASE::operator=` is to a local copy. -/
def assign (h : NewArrayHolder α) (p : α) : Outcome α α := Wrapper.assign h (ConstRef.stable p)

/-- `bool IsNull() { return BASE::GetValue() == NULL_VAL; }` -/
def IsNull [DecidableEq α] (NULL_VAL : α) (h : NewArrayHolder α) : Outcome α Bool :=
  let g := HolderNoDefaultValue.GetValue h
  { ret := decide (g.ret = NULL_VAL), self := g.self, calls := g.calls }

end NewArrayHolder

/-- `class CreateHolder : public BASE`, with `BASE = Wrapper<PTR_TYPE, ACQUIRE_FUNC,
RELEASE_FUNC, NULL_VAL>`. -/
abbrev CreateHolder (α : Type) := Wrapper α

namespace CreateHolder

variable {α : Type}

/-- `CreateHolder(PTR_TYPE p = NULL_VAL) : BASE(p) { }`; `none` is the omitted argument. -/
def construct (NULL_VAL : α) (p : Option α) : Outcome α Unit :=
  Wrapper.construct (p.getD NULL_VAL) true

/-- `PTR_TYPE& operator=(PTR_TYPE p) { return BASE::operator=(p); }`; `p` is a by-value
parameter, so the reference handed to `BASE::operator=` is to a local copy. -/
def assign (h : CreateHolder α) (p : α) : Outcome α α := Wrapper.assign h (ConstRef.stable p)

end CreateHolder

/-! ## Sequences of member function calls on one object -/

/-- The public member functions of `HolderNoDefaultValue`. -/
inductive HolderOp where
  | Acquire
  | Release
  | SuppressRelease
  | Extract
  | GetValue
  deriving DecidableEq, Repr

/-- Runs one member function and forgets its return value. -/
def HolderOp.step {α : Type} (op : HolderOp) (h : HolderNoDefaultValue α) :
    HolderNoDefaultValue α × List (Call α) :=
  match op with
  | HolderOp.Acquire => (h.Acquire.self, h.Acquire.calls)
  | HolderOp.Release => (h.Release.self, h.Release.calls)
  | HolderOp.SuppressRelease => (h.SuppressRelease.self, h.SuppressRelease.calls)
  | HolderOp.Extract => (h.Extract.self, h.Extract.calls)
  | HolderOp.GetValue => (h.GetValue.self, h.GetValue.calls)

/-- Runs member functions one after the other; returns the final object and all calls. -/
def runOps {α : Type} (h : HolderNoDefaultValue α) :
    List HolderOp → HolderNoDefaultValue α × List (Call α)
  | [] => (h, [])
  | op :: ops =>
    let s := op.step h
    let r := runOps s.1 ops
    (r.1, s.2 ++ r.2)

/-- The whole trace of an object: construction, member function calls, destruction. -/
def holderLifetime {α : Type} (value : α) (fTake : Bool) (ops : List HolderOp) :
    List (Call α) :=
  let c := HolderNoDefaultValue.construct value fTake
  let r := runOps c.self ops
  c.calls ++ r.2 ++ r.1.destruct

/-- Whether every `Acquire()` of the sequence finds the holder not held. -/
def acquiresOnlyWhenNotHeld {α : Type} (h : HolderNoDefaultValue α) : List HolderOp → Bool
  | [] => true
  | op :: ops =>
    (op != HolderOp.Acquire || !h.m_held) && acquiresOnlyWhenNotHeld (op.step h).1 ops

/-- The public operations of `Wrapper` that can make calls or change the object: those
inherited from `HolderNoDefaultValue`, and `operator=(TYPE const &)`. -/
inductive WrapperOp (α : Type) where
  | holder (op : HolderOp)
  | assign (value : ConstRef α)

/-- Runs one operation of a wrapper and forgets its return value. -/
def WrapperOp.step {α : Type} (op : WrapperOp α) (h : Wrapper α) :
    Wrapper α × List (Call α) :=
  match op with
  | WrapperOp.holder o => o.step h
  | WrapperOp.assign value => ((Wrapper.assign h value).self, (Wrapper.assign h value).calls)

/-- Runs wrapper operations one after the other. -/
def runWrapperOps {α : Type} (h : Wrapper α) :
    List (WrapperOp α) → Wrapper α × List (Call α)
  | [] => (h, [])
  | op :: ops =>
    let s := op.step h
    let r := runWrapperOps s.1 ops
    (r.1, s.2 ++ r.2)

/-- The whole trace of a wrapper: construction, operations, destruction. -/
def wrapperLifetime {α : Type} (value : α) (fTake : Bool) (ops : List (WrapperOp α)) :
    List (Call α) :=
  let c := Wrapper.construct value fTake
  let r := runWrapperOps c.self ops
  c.calls ++ r.2 ++ HolderNoDefaultValue.destruct r.1

/-! ## Clump constants of `gcrhinterface.h` -/

/-- `#if (POINTER_SIZE == 8) #define CLUMP_SIZE 0x800 #elif (POINTER_SIZE == 4)
#define CLUMP_SIZE 0x400 #else #error`; `none` stands for the `#error` branch.
`POINTER_SIZE` is defined outside this header and is a parameter here. -/
def CLUMP_SIZE (POINTER_SIZE : Nat) : Option Nat :=
  if POINTER_SIZE = 8 then some 0x800
  else if POINTER_SIZE = 4 then some 0x400
  else none

/-- `LOG2_CLUMP_SIZE` is 11 under `POINTER_SIZE == 8`, 10 under `POINTER_SIZE == 4`, and
the header does not compile otherwise (`none`). -/
def LOG2_CLUMP_SIZE (POINTER_SIZE : Nat) : Option Nat :=
  if POINTER_SIZE = 8 then some 11
  else if POINTER_SIZE = 4 then some 10
  else none

/-- In the trace `t`, the call right before every `RELEASE_FUNC(v)` is `ACQUIRE_FUNC(v)`. -/
def ReleaseFollowsAcquire {α : Type} (t : List (Call α)) : Prop :=
  ∀ (i : Nat) (v : α), t[i]? = some (Call.RELEASE_FUNC v) →
    ∃ j, i = j + 1 ∧ t[j]? = some (Call.ACQUIRE_FUNC v)

/-! ## Object-scan callback protocol of `gcrhinterface.h` -/

/-- `typedef int (*GcScanObjectFunction)(void*, void*);` with the real signature
`int ScanFunction(Object* pObject, void* pContext)`: the callback reads and may update what
`pContext` points to (`σ`) and returns an `int`. -/
abbrev GcScanObjectFunction (Obj σ : Type) := Obj → σ → Int × σ

/-- Modelled from the spec: the enumeration loop behind `ScanHeap` and `ScanObject`, whose
body is in `gcrhenv.cpp` and the collector, not in this header. Following the comment on
`GcScanObjectFunction` ("zero indicates the enumeration should terminate, all other values
say continue") the walk calls the callback on each located object in turn and stops after
the first call that returns zero. Returns the invocations made (object, returned value),
in order, and the final context. -/
def scanWalk {Obj σ : Type} (pfnScanCallback : GcScanObjectFunction Obj σ) :
    List Obj → σ → List (Obj × Int) × σ
  | [], ctx => ([], ctx)
  | o :: rest, ctx =>
    let r := pfnScanCallback o ctx
    if r.1 = 0 then ([(o, r.1)], r.2)
    else
      let w := scanWalk pfnScanCallback rest r.2
      ((o, r.1) :: w.1, w.2)

namespace RedhawkGCInterface

/-- Modelled from the spec: `static void ScanHeap(GcScanObjectFunction pfnScanCallback,
void *pContext)` is only declared in this header; `heap` lists the live objects in the
order the walk locates them. -/
def ScanHeap {Obj σ : Type} (heap : List Obj) (pfnScanCallback : GcScanObjectFunction Obj σ)
    (pContext : σ) : List (Obj × Int) × σ :=
  scanWalk pfnScanCallback heap pContext

/-- Modelled from the spec: `static void ScanObject(void *pObject, GcScanObjectFunction
pfnScanCallback, void *pContext)` is only declared in this header; `fields` gives the
objects referenced from the instance fields of an object. -/
def ScanObject {Obj σ : Type} (fields : Obj → List Obj) (pObject : Obj)
    (pfnScanCallback : GcScanObjectFunction Obj σ) (pContext : σ) : List (Obj × Int) × σ :=
  scanWalk pfnScanCallback (fields pObject) pContext

end RedhawkGCInterface

/-! ## Theorems -/

section HolderTheorems

variable {α : Type}

/-- C2: constructing with `fTake = true` calls `ACQUIRE_FUNC(v)` exactly once and leaves the
holder held with value `v`, and destroying it right away calls `RELEASE_FUNC(v)` exactly
once; constructing with `fTake = false` makes no call, leaves the holder not held, and its
destruction makes no call. -/
theorem construct_then_destruct (v : α) :
    (HolderNoDefaultValue.construct v true).calls = [Call.ACQUIRE_FUNC v]
    ∧ (HolderNoDefaultValue.construct v true).self.m_held = true
    ∧ (HolderNoDefaultValue.construct v true).self.m_value = v
    ∧ (HolderNoDefaultValue.construct v true).self.destruct = [Call.RELEASE_FUNC v]
    ∧ (HolderNoDefaultValue.construct v false).calls = []
    ∧ (HolderNoDefaultValue.construct v false).self.m_held = false
    ∧ (HolderNoDefaultValue.construct v false).self.m_value = v
    ∧ (HolderNoDefaultValue.construct v false).self.destruct = [] := by
  simp [HolderNoDefaultValue.construct, HolderNoDefaultValue.destruct]

/-- C3: `Release()` is idempotent. A second `Release()` changes nothing and calls nothing;
the first one calls `RELEASE_FUNC(m_value)` exactly once if the holder was held and nothing
otherwise; afterwards the holder is not held, its value is unchanged, and its destruction
makes no call. -/
theorem Release_idempotent (h : HolderNoDefaultValue α) :
    h.Release.self.Release.self = h.Release.self
    ∧ h.Release.calls ++ h.Release.self.Release.calls = h.Release.calls
    ∧ h.Release.calls = (if h.m_held then [Call.RELEASE_FUNC h.m_value] else [])
    ∧ h.Release.self.m_held = false
    ∧ h.Release.self.m_value = h.m_value
    ∧ h.Release.self.destruct = [] := by
  obtain ⟨v, held⟩ := h
  cases held <;> simp [HolderNoDefaultValue.Release, HolderNoDefaultValue.destruct]

/-- C4: `SuppressRelease()` calls neither `ACQUIRE_FUNC` nor `RELEASE_FUNC`, keeps `m_value`
and marks the holder not held, so a `Release()` or a destruction right after it makes no
call. -/
theorem SuppressRelease_frame (h : HolderNoDefaultValue α) :
    h.SuppressRelease.calls = []
    ∧ h.SuppressRelease.self.m_value = h.m_value
    ∧ h.SuppressRelease.self.m_held = false
    ∧ h.SuppressRelease.self.Release.calls = []
    ∧ h.SuppressRelease.self.destruct = [] := by
  simp [HolderNoDefaultValue.SuppressRelease, HolderNoDefaultValue.Release,
    HolderNoDefaultValue.destruct]

/-- C9, as the code has it: `Wrapper::operator=` on a wrapper with value `old` calls
`RELEASE_FUNC(old)` once if the wrapper was held and not at all otherwise, and then
`ACQUIRE_FUNC` once on the value it reads through the argument reference after `Release()`
has returned; afterwards that value is the wrapper's value, the wrapper is held, and the
operator returns that value. The value read is the one the reference had on entry when the
wrapper was not held, and it is `w` when the referent is an object holding `w` that no call
writes, as in the `operator=` of `NewHolder`, `NewArrayHolder` and `CreateHolder`. -/
theorem Wrapper_assign_effect (h : Wrapper α) (value : ConstRef α) (w : α) :
    ((Wrapper.assign h value).calls =
        (if h.m_held then [Call.RELEASE_FUNC h.m_value] else [])
          ++ [Call.ACQUIRE_FUNC
                (value.read (if h.m_held then [Call.RELEASE_FUNC h.m_value] else []))]
      ∧ (Wrapper.assign h value).self.m_value
          = value.read (if h.m_held then [Call.RELEASE_FUNC h.m_value] else [])
      ∧ (Wrapper.assign h value).self.m_held = true
      ∧ (Wrapper.assign h value).ret
          = value.read (if h.m_held then [Call.RELEASE_FUNC h.m_value] else []))
    ∧ (h.m_held = false →
        (Wrapper.assign h value).calls = [Call.ACQUIRE_FUNC (value.read [])]
        ∧ (Wrapper.assign h value).self.m_value = value.read []
        ∧ (Wrapper.assign h value).ret = value.read [])
    ∧ ((Wrapper.assign h (ConstRef.stable w)).calls =
        (if h.m_held then [Call.RELEASE_FUNC h.m_value] else []) ++ [Call.ACQUIRE_FUNC w]
      ∧ (Wrapper.assign h (ConstRef.stable w)).self.m_value = w
      ∧ (Wrapper.assign h (ConstRef.stable w)).self.m_held = true
      ∧ (Wrapper.assign h (ConstRef.stable w)).ret = w)
    ∧ (NewHolder.assign h w = Wrapper.assign h (ConstRef.stable w)
      ∧ NewArrayHolder.assign h w = Wrapper.assign h (ConstRef.stable w)
      ∧ CreateHolder.assign h w = Wrapper.assign h (ConstRef.stable w)) := by
  obtain ⟨v, held⟩ := h
  refine ⟨?_, ?_, ?_, ⟨rfl, rfl, rfl⟩⟩
  · cases held <;>
      simp [Wrapper.assign, HolderNoDefaultValue.Release, HolderNoDefaultValue.Acquire]
  · intro hh
    simp only at hh
    subst hh
    simp [Wrapper.assign, HolderNoDefaultValue.Release, HolderNoDefaultValue.Acquire]
  · cases held <;>
      simp [Wrapper.assign, HolderNoDefaultValue.Release, HolderNoDefaultValue.Acquire,
        ConstRef.stable]

/-- C9 as stated fails on the code. The wrapper holds 1001 and the argument refers to an
object that contains 1002 until `RELEASE_FUNC(1001)` has run and 0 from then on (as in
`w = w->next` with a release function that clears the node): the operator is passed 1002
but acquires, stores and returns 0. -/
theorem Wrapper_assign_counterexample :
    (ConstRef.mk (fun calls => if Call.RELEASE_FUNC 1001 ∈ calls then 0 else 1002)).read []
      = (1002 : Nat)
    ∧ (Wrapper.assign ⟨1001, true⟩
        (ConstRef.mk
          (fun calls => if Call.RELEASE_FUNC 1001 ∈ calls then 0 else 1002))).calls
      = [Call.RELEASE_FUNC 1001, Call.ACQUIRE_FUNC 0]
    ∧ (Wrapper.assign ⟨1001, true⟩
        (ConstRef.mk
          (fun calls => if Call.RELEASE_FUNC 1001 ∈ calls then 0 else 1002))).calls
      ≠ [Call.RELEASE_FUNC 1001, Call.ACQUIRE_FUNC 1002]
    ∧ (Wrapper.assign ⟨1001, true⟩
        (ConstRef.mk
          (fun calls => if Call.RELEASE_FUNC 1001 ∈ calls then 0 else 1002))).self.m_value
      ≠ 1002
    ∧ (Wrapper.assign ⟨1001, true⟩
        (ConstRef.mk (fun calls => if Call.RELEASE_FUNC 1001 ∈ calls then 0 else 1002))).ret
      ≠ 1002 := by
  decide

/-- Instance of the amended C9: on a wrapper that is not held, the same reference is read
with its content on entry, 1002. -/
theorem Wrapper_assign_effect_witness :
    (HolderNoDefaultValue.mk (1001 : Nat) false).m_held = false
    ∧ (Wrapper.assign ⟨1001, false⟩
        (ConstRef.mk
          (fun calls => if Call.RELEASE_FUNC 1001 ∈ calls then 0 else 1002))).calls
      = [Call.ACQUIRE_FUNC 1002]
    ∧ (Wrapper.assign ⟨1001, false⟩
        (ConstRef.mk (fun calls => if Call.RELEASE_FUNC 1001 ∈ calls then 0 else 1002))).ret
      = 1002 :=
  ⟨rfl,
    ((Wrapper_assign_effect ⟨1001, false⟩
      (ConstRef.mk (fun calls => if Call.RELEASE_FUNC 1001 ∈ calls then 0 else 1002))
      0).2.1 rfl).1,
    ((Wrapper_assign_effect ⟨1001, false⟩
      (ConstRef.mk (fun calls => if Call.RELEASE_FUNC 1001 ∈ calls then 0 else 1002))
      0).2.1 rfl).2.2⟩

end HolderTheorems

/-- C6: the clump constants are consistent. With `POINTER_SIZE = 8` the clump size is 2048
and its log2 is 11; with `POINTER_SIZE = 4` they are 1024 and 10; whenever both are defined
`CLUMP_SIZE = 2 ^ LOG2_CLUMP_SIZE`; and every other `POINTER_SIZE` defines neither. -/
theorem clump_constants_consistent :
    CLUMP_SIZE 8 = some 2048 ∧ LOG2_CLUMP_SIZE 8 = some 11
    ∧ CLUMP_SIZE 4 = some 1024 ∧ LOG2_CLUMP_SIZE 4 = some 10
    ∧ (∀ p c l : Nat, CLUMP_SIZE p = some c → LOG2_CLUMP_SIZE p = some l → c = 2 ^ l)
    ∧ (∀ p : Nat, p ≠ 8 → p ≠ 4 → CLUMP_SIZE p = none ∧ LOG2_CLUMP_SIZE p = none)
    ∧ (∀ p : Nat, (CLUMP_SIZE p).isSome = true → p = 8 ∨ p = 4) := by
  refine ⟨by decide, by decide, by decide, by decide, ?_, ?_, ?_⟩
  · intro p c l hc hl
    unfold CLUMP_SIZE at hc
    unfold LOG2_CLUMP_SIZE at hl
    by_cases h8 : p = 8
    · simp [h8] at hc hl
      subst hc; subst hl; norm_num
    · by_cases h4 : p = 4
      · simp [h4] at hc hl
        subst hc; subst hl; norm_num
      · simp [h8, h4] at hc
  · intro p h8 h4
    simp [CLUMP_SIZE, LOG2_CLUMP_SIZE, h8, h4]
  · intro p hp
    unfold CLUMP_SIZE at hp
    by_cases h8 : p = 8
    · exact Or.inl h8
    · by_cases h4 : p = 4
      · exact Or.inr h4
      · simp [h8, h4] at hp

/-- Instance of C6: on a 64-bit target both constants are defined and 2048 = 2 ^ 11; a
16-bit pointer size defines neither. -/
theorem clump_constants_consistent_witness :
    (CLUMP_SIZE 8 = some 2048 ∧ LOG2_CLUMP_SIZE 8 = some 11 ∧ 2048 = 2 ^ 11)
    ∧ ((2 : Nat) ≠ 8 ∧ (2 : Nat) ≠ 4 ∧ CLUMP_SIZE 2 = none ∧ LOG2_CLUMP_SIZE 2 = none) :=
  ⟨⟨by decide, by decide,
      clump_constants_consistent.2.2.2.2.1 8 2048 11 (by decide) (by decide)⟩,
    ⟨by decide, by decide,
      clump_constants_consistent.2.2.2.2.2.1 2 (by decide) (by decide)⟩⟩

section SequenceTheorems

variable {α : Type}

/-- No member function of `HolderNoDefaultValue` writes `m_value`. -/
theorem HolderOp.step_m_value (op : HolderOp) (h : HolderNoDefaultValue α) :
    (op.step h).1.m_value = h.m_value := by
  obtain ⟨v, held⟩ := h
  cases op <;> cases held <;>
    simp [HolderOp.step, HolderNoDefaultValue.Acquire, HolderNoDefaultValue.Release,
      HolderNoDefaultValue.SuppressRelease, HolderNoDefaultValue.Extract,
      HolderNoDefaultValue.GetValue]

/-- A sequence of member functions of `HolderNoDefaultValue` leaves `m_value` as it was. -/
theorem runOps_m_value (ops : List HolderOp) (h : HolderNoDefaultValue α) :
    (runOps h ops).1.m_value = h.m_value := by
  induction ops generalizing h with
  | nil => rfl
  | cons op ops ih =>
    simp only [runOps]
    rw [ih, HolderOp.step_m_value]

/-- C5: `Extract()` returns the current value, the same value `GetValue()` returns, makes
no call and marks the holder not held without changing its value, so that a destruction
right after it makes no call; on a holder that only went through member functions of
`HolderNoDefaultValue` since its construction, the value returned is the one passed to the
constructor. -/
theorem Extract_returns_value (h : HolderNoDefaultValue α) :
    h.Extract.ret = h.m_value
    ∧ h.Extract.ret = h.GetValue.ret
    ∧ h.Extract.calls = []
    ∧ h.Extract.self.m_held = false
    ∧ h.Extract.self.m_value = h.m_value
    ∧ h.Extract.self.destruct = []
    ∧ (∀ (value : α) (fTake : Bool) (ops : List HolderOp),
        (runOps (HolderNoDefaultValue.construct value fTake).self ops).1.Extract.ret = value
        ∧ (runOps (HolderNoDefaultValue.construct value fTake).self ops).1.GetValue.ret
            = value) := by
  refine ⟨rfl, rfl, rfl, rfl, rfl, ?_, ?_⟩
  · simp [HolderNoDefaultValue.Extract, HolderNoDefaultValue.GetValue,
      HolderNoDefaultValue.destruct]
  · intro value fTake ops
    have hv := runOps_m_value ops (HolderNoDefaultValue.construct value fTake).self
    have hc : (HolderNoDefaultValue.construct value fTake).self.m_value = value := by
      cases fTake <;> simp [HolderNoDefaultValue.construct]
    simp only [HolderNoDefaultValue.Extract, HolderNoDefaultValue.GetValue]
    rw [hv, hc]
    exact ⟨rfl, rfl⟩

end SequenceTheorems

section DefaultConstruction

variable {α : Type}

/-- C10: a default-constructed `Holder` or `Wrapper` has value `DEFAULTVALUE`, is not held,
and neither its construction nor its destruction makes a call. A `NewHolder`,
`NewArrayHolder` or `CreateHolder` constructed with no argument, or with `NULL_VAL`, has
value `NULL_VAL`, is held, and its destruction calls `RELEASE_FUNC(NULL_VAL)` exactly once:
with the default template arguments that is `delete`, `delete []` resp. the `Destroy`
method run on the null value. `IsNull()` returns true exactly when the value is
`NULL_VAL`. -/
theorem default_construction_levels [DecidableEq α] (DEFAULTVALUE NULL_VAL : α) :
    ((Holder.constructDefault DEFAULTVALUE).self.m_value = DEFAULTVALUE
      ∧ (Holder.constructDefault DEFAULTVALUE).self.m_held = false
      ∧ (Holder.constructDefault DEFAULTVALUE).calls = []
      ∧ (Holder.constructDefault DEFAULTVALUE).self.destruct = [])
    ∧ ((Wrapper.constructDefault DEFAULTVALUE).self.m_value = DEFAULTVALUE
      ∧ (Wrapper.constructDefault DEFAULTVALUE).self.m_held = false
      ∧ (Wrapper.constructDefault DEFAULTVALUE).calls = []
      ∧ (Wrapper.constructDefault DEFAULTVALUE).self.destruct = [])
    ∧ ((NewHolder.construct NULL_VAL none).self.m_value = NULL_VAL
      ∧ (NewHolder.construct NULL_VAL none).self.m_held = true
      ∧ (NewHolder.construct NULL_VAL none).calls = [Call.ACQUIRE_FUNC NULL_VAL]
      ∧ (NewHolder.construct NULL_VAL none).self.destruct = [Call.RELEASE_FUNC NULL_VAL]
      ∧ perform DoNothing Delete
          ((NewHolder.construct NULL_VAL none).calls
            ++ (NewHolder.construct NULL_VAL none).self.destruct)
          = [Effect.deleteScalar NULL_VAL]
      ∧ (NewHolder.IsNull NULL_VAL (NewHolder.construct NULL_VAL none).self).ret = true
      ∧ NewHolder.construct NULL_VAL (some NULL_VAL) = NewHolder.construct NULL_VAL none)
    ∧ ((NewArrayHolder.construct NULL_VAL none).self.m_value = NULL_VAL
      ∧ (NewArrayHolder.construct NULL_VAL none).self.m_held = true
      ∧ (NewArrayHolder.construct NULL_VAL none).calls = [Call.ACQUIRE_FUNC NULL_VAL]
      ∧ (NewArrayHolder.construct NULL_VAL none).self.destruct
          = [Call.RELEASE_FUNC NULL_VAL]
      ∧ perform DoNothing DeleteArray
          ((NewArrayHolder.construct NULL_VAL none).calls
            ++ (NewArrayHolder.construct NULL_VAL none).self.destruct)
          = [Effect.deleteArray NULL_VAL]
      ∧ (NewArrayHolder.IsNull NULL_VAL (NewArrayHolder.construct NULL_VAL none).self).ret
          = true
      ∧ NewArrayHolder.construct NULL_VAL (some NULL_VAL)
          = NewArrayHolder.construct NULL_VAL none)
    ∧ ((CreateHolder.construct NULL_VAL none).self.m_value = NULL_VAL
      ∧ (CreateHolder.construct NULL_VAL none).self.m_held = true
      ∧ (CreateHolder.construct NULL_VAL none).calls = [Call.ACQUIRE_FUNC NULL_VAL]
      ∧ (CreateHolder.construct NULL_VAL none).self.destruct = [Call.RELEASE_FUNC NULL_VAL]
      ∧ perform DoNothing Destroy
          ((CreateHolder.construct NULL_VAL none).calls
            ++ (CreateHolder.construct NULL_VAL none).self.destruct)
          = [Effect.destroyMethod NULL_VAL]
      ∧ CreateHolder.construct NULL_VAL (some NULL_VAL)
          = CreateHolder.construct NULL_VAL none)
    ∧ (∀ h : NewHolder α, (NewHolder.IsNull NULL_VAL h).ret = true ↔ h.m_value = NULL_VAL)
    ∧ (∀ h : NewArrayHolder α,
        (NewArrayHolder.IsNull NULL_VAL h).ret = true ↔ h.m_value = NULL_VAL) := by
  refine ⟨?_, ?_, ?_, ?_, ?_, ?_, ?_⟩
  · simp [Holder.constructDefault, HolderNoDefaultValue.construct,
      HolderNoDefaultValue.destruct]
  · simp [Wrapper.constructDefault, Holder.constructDefault, HolderNoDefaultValue.construct,
      HolderNoDefaultValue.destruct]
  · simp [NewHolder.construct, NewHolder.IsNull, Wrapper.construct, Holder.construct,
      HolderNoDefaultValue.construct, HolderNoDefaultValue.destruct,
      HolderNoDefaultValue.GetValue, perform, DoNothing, Delete]
  · simp [NewArrayHolder.construct, NewArrayHolder.IsNull, Wrapper.construct,
      Holder.construct, HolderNoDefaultValue.construct, HolderNoDefaultValue.destruct,
      HolderNoDefaultValue.GetValue, perform, DoNothing, DeleteArray]
  · simp [CreateHolder.construct, Wrapper.construct, Holder.construct,
      HolderNoDefaultValue.construct, HolderNoDefaultValue.destruct, perform, DoNothing,
      Destroy]
  · intro h
    simp [NewHolder.IsNull, HolderNoDefaultValue.GetValue]
  · intro h
    simp [NewArrayHolder.IsNull, HolderNoDefaultValue.GetValue]

end DefaultConstruction

section Balance

variable {α : Type}

/-- The acquire count of a concatenation. -/
theorem acquireCount_append (s t : List (Call α)) :
    acquireCount (s ++ t) = acquireCount s + acquireCount t := by
  simp [acquireCount, List.countP_append]

/-- The release count of a concatenation. -/
theorem releaseCount_append (s t : List (Call α)) :
    releaseCount (s ++ t) = releaseCount s + releaseCount t := by
  simp [releaseCount, List.countP_append]

/-- Running a concatenation of sequences is running them one after the other. -/
theorem runOps_append (a b : List HolderOp) (h : HolderNoDefaultValue α) :
    runOps h (a ++ b) = ((runOps (runOps h a).1 b).1, (runOps h a).2 ++ (runOps (runOps h a).1 b).2) := by
  induction a generalizing h with
  | nil => simp [runOps]
  | cons op a ih => simp [runOps, ih, List.append_assoc]

/-- Without `SuppressRelease` and `Extract`, and with every `Acquire()` issued on a holder
that is not held, acquires and releases stay balanced up to the held flag. -/
theorem runOps_balance (ops : List HolderOp) (h : HolderNoDefaultValue α)
    (hSE : ∀ op ∈ ops, op ≠ HolderOp.SuppressRelease ∧ op ≠ HolderOp.Extract)
    (hAcq : acquiresOnlyWhenNotHeld h ops = true) :
    acquireCount (runOps h ops).2 + h.m_held.toNat
      = releaseCount (runOps h ops).2 + (runOps h ops).1.m_held.toNat := by
  induction ops generalizing h with
  | nil => simp [runOps, acquireCount, releaseCount]
  | cons op ops ih =>
    have hrest : ∀ o ∈ ops, o ≠ HolderOp.SuppressRelease ∧ o ≠ HolderOp.Extract :=
      fun o ho => hSE o (List.mem_cons_of_mem _ ho)
    have hop := hSE op (List.mem_cons_self _ _)
    simp only [acquiresOnlyWhenNotHeld, Bool.and_eq_true] at hAcq
    have ih1 := ih (op.step h).1 hrest hAcq.2
    have h1 := hAcq.1
    obtain ⟨v, held⟩ := h
    simp only [runOps, acquireCount_append, releaseCount_append]
    cases op with
    | Acquire =>
      cases held
      · simp [HolderOp.step, HolderNoDefaultValue.Acquire, acquireCount, releaseCount,
          Call.isAcquire, Call.isRelease] at ih1 ⊢
        omega
      · simp at h1
    | Release =>
      cases held
      · simp [HolderOp.step, HolderNoDefaultValue.Release, acquireCount, releaseCount] at ih1 ⊢
        omega
      · simp [HolderOp.step, HolderNoDefaultValue.Release, acquireCount, releaseCount,
          Call.isAcquire, Call.isRelease] at ih1 ⊢
        omega
    | SuppressRelease => exact absurd rfl hop.1
    | Extract => exact absurd rfl hop.2
    | GetValue =>
      simp [HolderOp.step, HolderNoDefaultValue.GetValue, acquireCount, releaseCount] at ih1 ⊢
      omega

end Balance

section Suppression

variable {α : Type}

/-- On a holder that is not held, a sequence without `Acquire()` calls `RELEASE_FUNC` zero
times and leaves the holder not held. -/
theorem runOps_not_held (ops : List HolderOp) (h : HolderNoDefaultValue α)
    (hh : h.m_held = false) (hA : HolderOp.Acquire ∉ ops) :
    releaseCount (runOps h ops).2 = 0 ∧ (runOps h ops).1.m_held = false := by
  induction ops generalizing h with
  | nil => simp [runOps, releaseCount, hh]
  | cons op ops ih =>
    have hne : op ≠ HolderOp.Acquire := fun e => hA (e ▸ List.mem_cons_self _ _)
    have hrest : HolderOp.Acquire ∉ ops := fun m => hA (List.mem_cons_of_mem _ m)
    obtain ⟨v, held⟩ := h
    simp only at hh
    subst hh
    simp only [runOps, releaseCount_append]
    cases op with
    | Acquire => exact absurd rfl hne
    | Release =>
      have := ih (HolderOp.Release.step ⟨v, false⟩).1
        (by simp [HolderOp.step, HolderNoDefaultValue.Release]) hrest
      simpa [HolderOp.step, HolderNoDefaultValue.Release, releaseCount] using this
    | SuppressRelease =>
      have := ih (HolderOp.SuppressRelease.step ⟨v, false⟩).1
        (by simp [HolderOp.step, HolderNoDefaultValue.SuppressRelease]) hrest
      simpa [HolderOp.step, HolderNoDefaultValue.SuppressRelease, releaseCount] using this
    | Extract =>
      have := ih (HolderOp.Extract.step ⟨v, false⟩).1
        (by simp [HolderOp.step, HolderNoDefaultValue.Extract,
          HolderNoDefaultValue.GetValue]) hrest
      simpa [HolderOp.step, HolderNoDefaultValue.Extract, HolderNoDefaultValue.GetValue,
        releaseCount] using this
    | GetValue =>
      have := ih (HolderOp.GetValue.step ⟨v, false⟩).1
        (by simp [HolderOp.step, HolderNoDefaultValue.GetValue]) hrest
      simpa [HolderOp.step, HolderNoDefaultValue.GetValue, releaseCount] using this

/-- A sequence without `Release()` calls `RELEASE_FUNC` zero times. -/
theorem runOps_no_Release (ops : List HolderOp) (h : HolderNoDefaultValue α)
    (hR : HolderOp.Release ∉ ops) : releaseCount (runOps h ops).2 = 0 := by
  induction ops generalizing h with
  | nil => simp [runOps, releaseCount]
  | cons op ops ih =>
    have hne : op ≠ HolderOp.Release := fun e => hR (e ▸ List.mem_cons_self _ _)
    have hrest : HolderOp.Release ∉ ops := fun m => hR (List.mem_cons_of_mem _ m)
    simp only [runOps, releaseCount_append, ih _ hrest]
    cases op with
    | Release => exact absurd rfl hne
    | Acquire =>
      simp [HolderOp.step, HolderNoDefaultValue.Acquire, releaseCount, Call.isRelease]
    | SuppressRelease =>
      simp [HolderOp.step, HolderNoDefaultValue.SuppressRelease, releaseCount]
    | Extract =>
      simp [HolderOp.step, HolderNoDefaultValue.Extract, HolderNoDefaultValue.GetValue,
        releaseCount]
    | GetValue => simp [HolderOp.step, HolderNoDefaultValue.GetValue, releaseCount]

/-- `SuppressRelease()` and `Extract()` make no call and leave the holder not held. -/
theorem step_suppress_or_extract (s : HolderOp) (h : HolderNoDefaultValue α)
    (hs : s = HolderOp.SuppressRelease ∨ s = HolderOp.Extract) :
    (s.step h).2 = [] ∧ (s.step h).1.m_held = false := by
  rcases hs with rfl | rfl
  · simp [HolderOp.step, HolderNoDefaultValue.SuppressRelease]
  · simp [HolderOp.step, HolderNoDefaultValue.Extract, HolderNoDefaultValue.GetValue]

/-- The construction of a holder calls `RELEASE_FUNC` zero times, `ACQUIRE_FUNC` once when
`fTake` is set, and leaves `m_held = fTake`. -/
theorem construct_counts (value : α) (fTake : Bool) :
    releaseCount (HolderNoDefaultValue.construct value fTake).calls = 0
    ∧ acquireCount (HolderNoDefaultValue.construct value fTake).calls = fTake.toNat
    ∧ (HolderNoDefaultValue.construct value fTake).self.m_held = fTake := by
  cases fTake <;>
    simp [HolderNoDefaultValue.construct, releaseCount, acquireCount, Call.isAcquire,
      Call.isRelease]

/-- The destructor calls `ACQUIRE_FUNC` zero times and `RELEASE_FUNC` once when held. -/
theorem destruct_counts (h : HolderNoDefaultValue α) :
    acquireCount h.destruct = 0 ∧ releaseCount h.destruct = h.m_held.toNat := by
  obtain ⟨v, held⟩ := h
  cases held <;>
    simp [HolderNoDefaultValue.destruct, releaseCount, acquireCount, Call.isAcquire,
      Call.isRelease]

/-- C1, as the code has it: over a whole lifetime (construction with any value and
`fTake`, any sequence of `Acquire`, `Release`, `SuppressRelease`, `Extract`, `GetValue`,
then destruction), (a) if neither `SuppressRelease` nor `Extract` occurs and every
`Acquire()` is issued on a holder that is not held, the number of `RELEASE_FUNC` calls
equals the number of `ACQUIRE_FUNC` calls; (b) if `SuppressRelease` or `Extract` occurs and
no `Acquire()` follows it, no `RELEASE_FUNC` call is made from that operation on,
destruction included, so that the number of `RELEASE_FUNC` calls is zero when in addition
no `Release()` precedes it. -/
theorem holderLifetime_release_balance (value : α) (fTake : Bool) (ops : List HolderOp) :
    ((∀ op ∈ ops, op ≠ HolderOp.SuppressRelease ∧ op ≠ HolderOp.Extract) →
      acquiresOnlyWhenNotHeld (HolderNoDefaultValue.construct value fTake).self ops = true →
      releaseCount (holderLifetime value fTake ops)
        = acquireCount (holderLifetime value fTake ops))
    ∧ (∀ (pre : List HolderOp) (s : HolderOp) (post : List HolderOp),
        ops = pre ++ s :: post →
        (s = HolderOp.SuppressRelease ∨ s = HolderOp.Extract) →
        HolderOp.Acquire ∉ post →
        releaseCount (holderLifetime value fTake ops)
            = releaseCount ((HolderNoDefaultValue.construct value fTake).calls
                ++ (runOps (HolderNoDefaultValue.construct value fTake).self pre).2)
          ∧ (HolderOp.Release ∉ pre → releaseCount (holderLifetime value fTake ops) = 0)) := by
  obtain ⟨hc1, hc2, hc3⟩ := construct_counts value fTake
  constructor
  · intro hSE hAcq
    have hb := runOps_balance ops (HolderNoDefaultValue.construct value fTake).self hSE hAcq
    obtain ⟨hd1, hd2⟩ :=
      destruct_counts (runOps (HolderNoDefaultValue.construct value fTake).self ops).1
    simp only [holderLifetime, acquireCount_append, releaseCount_append, hc1, hc2, hd1, hd2]
    rw [hc3] at hb
    omega
  · intro pre s post hops hs hA
    obtain ⟨hs1, hs2⟩ :=
      step_suppress_or_extract s (runOps (HolderNoDefaultValue.construct value fTake).self pre).1 hs
    obtain ⟨hp1, hp2⟩ := runOps_not_held post _ hs2 hA
    have hd := (destruct_counts (runOps (s.step
      (runOps (HolderNoDefaultValue.construct value fTake).self pre).1).1 post).1).2
    rw [hp2] at hd
    have key : releaseCount (holderLifetime value fTake ops)
        = releaseCount ((HolderNoDefaultValue.construct value fTake).calls
            ++ (runOps (HolderNoDefaultValue.construct value fTake).self pre).2) := by
      subst hops
      simp only [holderLifetime, runOps_append, runOps, releaseCount_append, hs1, hp1, hd]
      simp [releaseCount]
    refine ⟨key, fun hR => ?_⟩
    rw [key, releaseCount_append, hc1, runOps_no_Release pre _ hR]

end Suppression

section BalanceInstances

/-- C1 as stated fails on the code. A second `Acquire()` on a held holder gives two
acquires for one release although neither `SuppressRelease` nor `Extract` occurs; a
`Release()` before `SuppressRelease()`, or an `Acquire()` after it, gives one release
although `SuppressRelease` occurs. -/
theorem holderLifetime_balance_counterexample :
    ((∀ op ∈ [HolderOp.Acquire], op ≠ HolderOp.SuppressRelease ∧ op ≠ HolderOp.Extract)
      ∧ holderLifetime (7 : Nat) true [HolderOp.Acquire]
          = [Call.ACQUIRE_FUNC 7, Call.ACQUIRE_FUNC 7, Call.RELEASE_FUNC 7]
      ∧ releaseCount (holderLifetime (7 : Nat) true [HolderOp.Acquire])
          ≠ acquireCount (holderLifetime (7 : Nat) true [HolderOp.Acquire]))
    ∧ (HolderOp.SuppressRelease ∈ [HolderOp.Release, HolderOp.SuppressRelease]
      ∧ holderLifetime (7 : Nat) true [HolderOp.Release, HolderOp.SuppressRelease]
          = [Call.ACQUIRE_FUNC 7, Call.RELEASE_FUNC 7]
      ∧ releaseCount (holderLifetime (7 : Nat) true
          [HolderOp.Release, HolderOp.SuppressRelease]) ≠ 0)
    ∧ (HolderOp.SuppressRelease ∈ [HolderOp.SuppressRelease, HolderOp.Acquire]
      ∧ holderLifetime (7 : Nat) false [HolderOp.SuppressRelease, HolderOp.Acquire]
          = [Call.ACQUIRE_FUNC 7, Call.RELEASE_FUNC 7]
      ∧ releaseCount (holderLifetime (7 : Nat) false
          [HolderOp.SuppressRelease, HolderOp.Acquire]) ≠ 0) := by
  decide

/-- Instance of the amended C1: a balanced lifetime without suppression, and a lifetime
whose `Extract()` is followed by no `Acquire()` and preceded by no `Release()`. -/
theorem holderLifetime_release_balance_witness :
    ((∀ op ∈ [HolderOp.Release, HolderOp.Acquire, HolderOp.GetValue],
        op ≠ HolderOp.SuppressRelease ∧ op ≠ HolderOp.Extract)
      ∧ acquiresOnlyWhenNotHeld (HolderNoDefaultValue.construct (7 : Nat) true).self
          [HolderOp.Release, HolderOp.Acquire, HolderOp.GetValue] = true
      ∧ releaseCount (holderLifetime (7 : Nat) true
            [HolderOp.Release, HolderOp.Acquire, HolderOp.GetValue])
          = acquireCount (holderLifetime (7 : Nat) true
            [HolderOp.Release, HolderOp.Acquire, HolderOp.GetValue]))
    ∧ (HolderOp.Acquire ∉ [HolderOp.Release] ∧ HolderOp.Release ∉ [HolderOp.GetValue]
      ∧ releaseCount (holderLifetime (7 : Nat) true
          [HolderOp.GetValue, HolderOp.Extract, HolderOp.Release]) = 0) :=
  ⟨⟨by decide, by decide,
      (holderLifetime_release_balance (7 : Nat) true
        [HolderOp.Release, HolderOp.Acquire, HolderOp.GetValue]).1 (by decide) (by decide)⟩,
    ⟨by decide, by decide,
      ((holderLifetime_release_balance (7 : Nat) true
        [HolderOp.GetValue, HolderOp.Extract, HolderOp.Release]).2
          [HolderOp.GetValue] HolderOp.Extract [HolderOp.Release] rfl (Or.inr rfl)
          (by decide)).2 (by decide)⟩⟩

end BalanceInstances

section Pairing

variable {α : Type}

/-- Appending an `ACQUIRE_FUNC` call keeps every release right after its acquire. -/
theorem ReleaseFollowsAcquire.snoc_acquire {t : List (Call α)} (ht : ReleaseFollowsAcquire t)
    (w : α) : ReleaseFollowsAcquire (t ++ [Call.ACQUIRE_FUNC w]) := by
  intro i v hi
  rw [List.getElem?_append] at hi
  split at hi
  · rename_i hlt
    obtain ⟨j, hj, hjv⟩ := ht i v hi
    refine ⟨j, hj, ?_⟩
    rw [List.getElem?_append_left (by omega)]
    exact hjv
  · rename_i hge
    by_cases he : i - t.length = 0
    · rw [he] at hi
      simp at hi
    · rw [List.getElem?_eq_none (by simp; omega)] at hi
      simp at hi

/-- Appending `RELEASE_FUNC(v)` to a trace that ends in `ACQUIRE_FUNC(v)` keeps every
release right after its acquire. -/
theorem ReleaseFollowsAcquire.snoc_release {t : List (Call α)} (ht : ReleaseFollowsAcquire t)
    (v : α) (hlast : t.getLast? = some (Call.ACQUIRE_FUNC v)) :
    ReleaseFollowsAcquire (t ++ [Call.RELEASE_FUNC v]) := by
  intro i u hi
  rw [List.getElem?_append] at hi
  split at hi
  · rename_i hlt
    obtain ⟨j, hj, hjv⟩ := ht i u hi
    refine ⟨j, hj, ?_⟩
    rw [List.getElem?_append_left (by omega)]
    exact hjv
  · rename_i hge
    by_cases he : i - t.length = 0
    · rw [he] at hi
      simp at hi
      subst hi
      have hne : t ≠ [] := by
        intro h0
        simp [h0] at hlast
      have hpos : 0 < t.length := List.length_pos.mpr hne
      refine ⟨t.length - 1, by omega, ?_⟩
      rw [List.getElem?_append_left (by omega), ← List.getLast?_eq_getElem?]
      exact hlast
    · rw [List.getElem?_eq_none (by simp; omega)] at hi
      simp at hi

/-- The pairing property passes to the trace without its last call. -/
theorem ReleaseFollowsAcquire.of_snoc {t : List (Call α)} {e : Call α}
    (ht : ReleaseFollowsAcquire (t ++ [e])) : ReleaseFollowsAcquire t := by
  intro i v hi
  have hlt : i < t.length := by
    by_contra hge
    rw [List.getElem?_eq_none (by omega)] at hi
    simp at hi
  obtain ⟨j, hj, hjv⟩ := ht i v (by rw [List.getElem?_append_left hlt]; exact hi)
  refine ⟨j, hj, ?_⟩
  rw [List.getElem?_append_left (by omega)] at hjv
  exact hjv

/-- In a trace with the pairing property that ends in `RELEASE_FUNC(v)`, the call before
the last is `ACQUIRE_FUNC(v)`. -/
theorem ReleaseFollowsAcquire.last_of_snoc_release {t : List (Call α)} {v : α}
    (ht : ReleaseFollowsAcquire (t ++ [Call.RELEASE_FUNC v])) :
    t.getLast? = some (Call.ACQUIRE_FUNC v) := by
  obtain ⟨j, hj, hjv⟩ := ht t.length v (List.getElem?_concat_length t _)
  rw [List.getElem?_append_left (by omega)] at hjv
  rw [List.getLast?_eq_getElem?]
  have : t.length - 1 = j := by omega
  rw [this]
  exact hjv

/-- The pairing property passes to every initial segment of the trace. -/
theorem ReleaseFollowsAcquire.take {t : List (Call α)} (ht : ReleaseFollowsAcquire t)
    (n : Nat) : ReleaseFollowsAcquire (t.take n) := by
  intro i v hi
  rw [List.getElem?_take] at hi
  split at hi
  · rename_i hlt
    obtain ⟨j, hj, hjv⟩ := ht i v hi
    refine ⟨j, hj, ?_⟩
    rw [List.getElem?_take_of_lt (by omega)]
    exact hjv
  · simp at hi

/-- A trace with the pairing property has at most as many releases as acquires, and one
release fewer when it ends in an acquire. -/
theorem ReleaseFollowsAcquire.count_le (t : List (Call α)) :
    ReleaseFollowsAcquire t →
      releaseCount t ≤ acquireCount t
      ∧ (∀ v, t.getLast? = some (Call.ACQUIRE_FUNC v) → releaseCount t + 1 ≤ acquireCount t) := by
  induction t using List.reverseRecOn with
  | nil =>
    intro _
    simp [releaseCount, acquireCount]
  | append_singleton t e ih =>
    intro ht
    have ih1 := ih ht.of_snoc
    cases e with
    | ACQUIRE_FUNC w =>
      simp only [releaseCount_append, acquireCount_append]
      simp only [releaseCount, acquireCount, List.countP_cons, List.countP_nil, Call.isAcquire,
        Call.isRelease]
      refine ⟨?_, fun _ _ => ?_⟩
      · have := ih1.1
        simp only [releaseCount, acquireCount] at this
        simp
        omega
      · have := ih1.1
        simp only [releaseCount, acquireCount] at this
        simp
        omega
    | RELEASE_FUNC w =>
      have hl := ht.last_of_snoc_release
      have h2 := ih1.2 w hl
      simp only [releaseCount_append, acquireCount_append]
      refine ⟨?_, fun v hv => ?_⟩
      · simp only [releaseCount, acquireCount, List.countP_cons, List.countP_nil,
          Call.isAcquire, Call.isRelease] at h2 ⊢
        simp
        omega
      · rw [List.getLast?_concat] at hv
        simp at hv

end Pairing

section WrapperTrace

variable {α : Type}

/-- One wrapper operation keeps the pairing property of the trace so far, and keeps the
fact that the trace of a held wrapper ends in the acquire of its current value. -/
theorem WrapperOp.step_keeps_pairing (op : WrapperOp α) (h : Wrapper α) (t : List (Call α))
    (ht : ReleaseFollowsAcquire t)
    (hinv : h.m_held = true → t.getLast? = some (Call.ACQUIRE_FUNC h.m_value)) :
    ReleaseFollowsAcquire (t ++ (op.step h).2)
    ∧ ((op.step h).1.m_held = true →
        (t ++ (op.step h).2).getLast? = some (Call.ACQUIRE_FUNC (op.step h).1.m_value)) := by
  obtain ⟨v, held⟩ := h
  cases op with
  | holder o =>
    cases o with
    | Acquire =>
      simp only [WrapperOp.step, HolderOp.step, HolderNoDefaultValue.Acquire]
      exact ⟨ht.snoc_acquire v, fun _ => List.getLast?_concat t⟩
    | Release =>
      cases held
      · simpa [WrapperOp.step, HolderOp.step, HolderNoDefaultValue.Release] using ht
      · simp only [WrapperOp.step, HolderOp.step, HolderNoDefaultValue.Release, if_true]
        exact ⟨ht.snoc_release v (hinv rfl), fun hf => by simp at hf⟩
    | SuppressRelease =>
      simpa [WrapperOp.step, HolderOp.step, HolderNoDefaultValue.SuppressRelease] using ht
    | Extract =>
      simpa [WrapperOp.step, HolderOp.step, HolderNoDefaultValue.Extract,
        HolderNoDefaultValue.GetValue] using ht
    | GetValue =>
      simp only [WrapperOp.step, HolderOp.step, HolderNoDefaultValue.GetValue,
        List.append_nil]
      exact ⟨ht, hinv⟩
  | assign w =>
    cases held
    · simp only [WrapperOp.step, Wrapper.assign, HolderNoDefaultValue.Release,
        HolderNoDefaultValue.Acquire, Bool.false_eq_true, if_false, List.nil_append]
      exact ⟨ht.snoc_acquire (w.read []), fun _ => List.getLast?_concat t⟩
    · simp only [WrapperOp.step, Wrapper.assign, HolderNoDefaultValue.Release,
        HolderNoDefaultValue.Acquire, if_true, List.singleton_append]
      have e : t ++ [Call.RELEASE_FUNC v, Call.ACQUIRE_FUNC (w.read [Call.RELEASE_FUNC v])]
          = (t ++ [Call.RELEASE_FUNC v])
              ++ [Call.ACQUIRE_FUNC (w.read [Call.RELEASE_FUNC v])] := by simp
      rw [e]
      exact ⟨(ht.snoc_release v (hinv rfl)).snoc_acquire _,
        fun _ => List.getLast?_concat _⟩

/-- A sequence of wrapper operations keeps the pairing property and the held invariant. -/
theorem runWrapperOps_keeps_pairing (ops : List (WrapperOp α)) (h : Wrapper α)
    (t : List (Call α)) (ht : ReleaseFollowsAcquire t)
    (hinv : h.m_held = true → t.getLast? = some (Call.ACQUIRE_FUNC h.m_value)) :
    ReleaseFollowsAcquire (t ++ (runWrapperOps h ops).2)
    ∧ ((runWrapperOps h ops).1.m_held = true →
        (t ++ (runWrapperOps h ops).2).getLast?
          = some (Call.ACQUIRE_FUNC (runWrapperOps h ops).1.m_value)) := by
  induction ops generalizing h t with
  | nil => simpa [runWrapperOps] using ⟨ht, hinv⟩
  | cons op ops ih =>
    obtain ⟨h1, h2⟩ := op.step_keeps_pairing h t ht hinv
    have := ih (op.step h).1 (t ++ (op.step h).2) h1 h2
    simpa only [runWrapperOps, List.append_assoc] using this

/-- The whole trace of a wrapper has the pairing property. -/
theorem wrapperLifetime_pairing (value : α) (fTake : Bool) (ops : List (WrapperOp α)) :
    ReleaseFollowsAcquire (wrapperLifetime value fTake ops) := by
  have h0 : ReleaseFollowsAcquire (Wrapper.construct value fTake).calls
      ∧ ((Wrapper.construct value fTake).self.m_held = true →
          (Wrapper.construct value fTake).calls.getLast?
            = some (Call.ACQUIRE_FUNC (Wrapper.construct value fTake).self.m_value)) := by
    have hnil : ReleaseFollowsAcquire ([] : List (Call α)) := by
      intro i v hi
      simp at hi
    cases fTake
    · simpa [Wrapper.construct, Holder.construct, HolderNoDefaultValue.construct] using hnil
    · have := hnil.snoc_acquire value
      simpa [Wrapper.construct, Holder.construct, HolderNoDefaultValue.construct] using this
  obtain ⟨h1, h2⟩ := runWrapperOps_keeps_pairing ops _ _ h0.1 h0.2
  unfold wrapperLifetime
  simp only
  generalize runWrapperOps (Wrapper.construct value fTake).self ops = r at h1 h2
  obtain ⟨⟨v, held⟩, tr⟩ := r
  cases held
  · simpa [HolderNoDefaultValue.destruct] using h1
  · simp only [HolderNoDefaultValue.destruct, if_true]
    exact h1.snoc_release v (h2 rfl)

/-- C8: in the trace of a wrapper's whole lifetime (construction with any value and
`fTake`, any sequence of `Acquire`, `Release`, `SuppressRelease`, `Extract`, `GetValue` and
value assignments through any argument reference, then destruction) the call right before
every `RELEASE_FUNC(v)` is `ACQUIRE_FUNC(v)` with the same `v`; hence at every point of the
trace the number of releases so far is at most the number of acquires so far. -/
theorem wrapperLifetime_release_follows_acquire (value : α) (fTake : Bool)
    (ops : List (WrapperOp α)) :
    (∀ (i : Nat) (v : α),
        (wrapperLifetime value fTake ops)[i]? = some (Call.RELEASE_FUNC v) →
        ∃ j, i = j + 1 ∧ (wrapperLifetime value fTake ops)[j]? = some (Call.ACQUIRE_FUNC v))
    ∧ (∀ n : Nat, releaseCount ((wrapperLifetime value fTake ops).take n)
        ≤ acquireCount ((wrapperLifetime value fTake ops).take n)) := by
  have hp := wrapperLifetime_pairing value fTake ops
  exact ⟨hp, fun n => (ReleaseFollowsAcquire.count_le _ (hp.take n)).1⟩

/-- Instance of C8: a held wrapper that is reassigned, released twice and re-acquired. -/
theorem wrapperLifetime_release_follows_acquire_witness :
    (wrapperLifetime (1 : Nat) true
        [WrapperOp.assign (ConstRef.stable 2), WrapperOp.holder HolderOp.Release,
          WrapperOp.holder HolderOp.Release, WrapperOp.holder HolderOp.Acquire])[5]?
      = some (Call.RELEASE_FUNC 2)
    ∧ ∃ j, 5 = j + 1 ∧
        (wrapperLifetime (1 : Nat) true
          [WrapperOp.assign (ConstRef.stable 2), WrapperOp.holder HolderOp.Release,
            WrapperOp.holder HolderOp.Release, WrapperOp.holder HolderOp.Acquire])[j]?
          = some (Call.ACQUIRE_FUNC 2) :=
  ⟨by decide,
    (wrapperLifetime_release_follows_acquire (1 : Nat) true
      [WrapperOp.assign (ConstRef.stable 2), WrapperOp.holder HolderOp.Release,
        WrapperOp.holder HolderOp.Release, WrapperOp.holder HolderOp.Acquire]).1 5 2
      (by decide)⟩

end WrapperTrace

section ScanProtocol

variable {Obj σ : Type}

/-- A walk over at least one object invokes the callback at least once. -/
theorem scanWalk_length_pos (cb : GcScanObjectFunction Obj σ) (objs : List Obj) (ctx : σ)
    (h : 0 < objs.length) : 0 < (scanWalk cb objs ctx).1.length := by
  cases objs with
  | nil => simp at h
  | cons o rest =>
    simp only [scanWalk]
    split <;> simp

/-- The `n`-th invocation of a walk is on the `n`-th object; if it returns zero it is the
last invocation, and if it returns non-zero and objects remain there is a next one. -/
theorem scanWalk_stops (cb : GcScanObjectFunction Obj σ) (objs : List Obj) (ctx : σ)
    (n : Nat) (o : Obj) (r : Int) (hn : (scanWalk cb objs ctx).1[n]? = some (o, r)) :
    objs[n]? = some o
    ∧ (r = 0 → (scanWalk cb objs ctx).1.length = n + 1)
    ∧ (r ≠ 0 → n + 1 < objs.length → n + 1 < (scanWalk cb objs ctx).1.length) := by
  induction objs generalizing ctx n with
  | nil => simp [scanWalk] at hn
  | cons x rest ih =>
    simp only [scanWalk] at hn ⊢
    by_cases hz : (cb x ctx).1 = 0
    · simp only [hz, if_true] at hn ⊢
      cases n with
      | zero =>
        simp at hn
        obtain ⟨rfl, rfl⟩ := hn
        simp
      | succ m => simp at hn
    · simp only [hz, if_false] at hn ⊢
      cases n with
      | zero =>
        simp at hn
        obtain ⟨rfl, rfl⟩ := hn
        refine ⟨by simp, fun h0 => absurd h0 hz, fun _ hlen => ?_⟩
        have := scanWalk_length_pos cb rest (cb x ctx).2 (by simpa using hlen)
        simpa using this
      | succ m =>
        simp only [List.getElem?_cons_succ] at hn
        obtain ⟨h1, h2, h3⟩ := ih (cb x ctx).2 m hn
        refine ⟨by simpa using h1, fun h0 => by simpa using h2 h0, fun hne hlen => ?_⟩
        have := h3 hne (by simpa using hlen)
        simpa using this

/-- C7: in a heap walk (`ScanHeap`) and in a per-object field walk (`ScanObject`), the
`n`-th callback invocation is on the `n`-th located object; if it returns zero, no further
invocation is made in that walk; if it returns any non-zero value and objects remain, the
enumeration continues with a next invocation. -/
theorem scan_callback_early_termination (heap : List Obj) (fields : Obj → List Obj)
    (pObject : Obj) (pfnScanCallback : GcScanObjectFunction Obj σ) (pContext : σ) :
    (∀ (n : Nat) (o : Obj) (r : Int),
      (RedhawkGCInterface.ScanHeap heap pfnScanCallback pContext).1[n]? = some (o, r) →
        heap[n]? = some o
        ∧ (r = 0 →
            (RedhawkGCInterface.ScanHeap heap pfnScanCallback pContext).1.length = n + 1)
        ∧ (r ≠ 0 → n + 1 < heap.length →
            n + 1 < (RedhawkGCInterface.ScanHeap heap pfnScanCallback pContext).1.length))
    ∧ (∀ (n : Nat) (o : Obj) (r : Int),
      (RedhawkGCInterface.ScanObject fields pObject pfnScanCallback pContext).1[n]?
          = some (o, r) →
        (fields pObject)[n]? = some o
        ∧ (r = 0 →
            (RedhawkGCInterface.ScanObject fields pObject pfnScanCallback pContext).1.length
              = n + 1)
        ∧ (r ≠ 0 → n + 1 < (fields pObject).length →
            n + 1 < (RedhawkGCInterface.ScanObject fields pObject pfnScanCallback
              pContext).1.length)) :=
  ⟨fun n o r hn => scanWalk_stops pfnScanCallback heap pContext n o r hn,
    fun n o r hn => scanWalk_stops pfnScanCallback (fields pObject) pContext n o r hn⟩

/-- Instance of C7: a callback that counts its invocations in the context and returns zero
on object 20 is invoked twice on a heap of four objects, and twice on the three fields of
an object. -/
theorem scan_callback_early_termination_witness :
    ((RedhawkGCInterface.ScanHeap [10, 20, 30, 40]
        (fun (o : Nat) (c : Nat) => (if o = 20 then (0 : Int) else 1, c + 1)) 0).1[1]?
        = some (20, 0)
      ∧ (RedhawkGCInterface.ScanHeap [10, 20, 30, 40]
        (fun (o : Nat) (c : Nat) => (if o = 20 then (0 : Int) else 1, c + 1)) 0).1.length
        = 1 + 1)
    ∧ ((RedhawkGCInterface.ScanObject (fun _ => [10, 20, 30]) 5
        (fun (o : Nat) (c : Nat) => (if o = 20 then (0 : Int) else 1, c + 1)) 0).1[0]?
        = some (10, 1)
      ∧ 0 + 1 < (RedhawkGCInterface.ScanObject (fun _ => [10, 20, 30]) 5
        (fun (o : Nat) (c : Nat) => (if o = 20 then (0 : Int) else 1, c + 1)) 0).1.length) :=
  ⟨⟨by decide,
      ((scan_callback_early_termination [10, 20, 30, 40] (fun _ => [10, 20, 30]) 5
        (fun (o : Nat) (c : Nat) => (if o = 20 then (0 : Int) else 1, c + 1)) 0).1
          1 20 0 (by decide)).2.1 rfl⟩,
    ⟨by decide,
      ((scan_callback_early_termination [10, 20, 30, 40] (fun _ => [10, 20, 30]) 5
        (fun (o : Nat) (c : Nat) => (if o = 20 then (0 : Int) else 1, c + 1)) 0).2
          0 10 1 (by decide)).2.2 (by decide) (by decide)⟩⟩

end ScanProtocol
